import Mathlib

/-
  Verification development for the gonids rule renderer (rule.go).
  The Go code is shallowly embedded: Go machine integers become Int,
  bytes become Nat (< 256), Go maps with distinct values become
  association lists in declaration order, and each String() method
  becomes a Lean function returning a String.
-/

set_option maxRecDepth 10000

/- Alias used in signatures of functions named X.String, to avoid
   ambiguity with the declaration being defined. -/
abbrev Str := String

/- The DataPos enumeration is a Go int, modelled as Int; the iota
   constants from rule.go follow. -/

def pktData : Int := 0
def fileData : Int := 1
def base64Data : Int := 2
def httpAcceptEnc : Int := 3
def httpAccept : Int := 4
def httpAcceptLang : Int := 5
def httpConnection : Int := 6
def httpContentLen : Int := 7
def httpContentType : Int := 8
def httpHeaderNames : Int := 9
def httpProtocol : Int := 10
def httpReferer : Int := 11
def httpRequestLine : Int := 12
def httpResponseLine : Int := 13
def httpStart : Int := 14
def tlsCertSubject : Int := 15
def tlsCertIssuer : Int := 16
def tlsCertSerial : Int := 17
def tlsCertFingerprint : Int := 18
def tlsSNI : Int := 19
def ja3Hash : Int := 20
def ja3String : Int := 21
def sshProto : Int := 22
def sshSoftware : Int := 23
def krb5Cname : Int := 24
def krb5Sname : Int := 25
def dnsQuery : Int := 26
def smbNamedPipe : Int := 27
def smbShare : Int := 28

/- The stickyBuffers map from rule.go, as an association list in
   declaration order. Keys and values are pairwise distinct, so the
   arbitrary Go map iteration order does not affect any lookup. -/
def stickyBuffers : List (Int × Str) :=
  [(pktData, "pkt_data"),
   (fileData, "file_data"),
   (base64Data, "base64_data"),
   (httpAcceptEnc, "http_accept_enc"),
   (httpAccept, "http_accept"),
   (httpAcceptLang, "http_accept_lang"),
   (httpConnection, "http_connection"),
   (httpContentLen, "http_content_len"),
   (httpContentType, "http_content_type"),
   (httpHeaderNames, "http_header_names"),
   (httpProtocol, "http_protocol"),
   (httpReferer, "http_referer"),
   (httpRequestLine, "http_request_line"),
   (httpResponseLine, "http_response_line"),
   (httpStart, "http_start"),
   (tlsCertSubject, "tls_cert_subject"),
   (tlsCertIssuer, "tls_cert_issuer"),
   (tlsCertSerial, "tls_cert_serial"),
   (tlsCertFingerprint, "tls_cert_fingerprint"),
   (tlsSNI, "tls_sni"),
   (ja3Hash, "ja3_hash"),
   (ja3String, "ja3_string"),
   (sshProto, "ssh_proto"),
   (sshSoftware, "ssh_software"),
   (krb5Cname, "krb5_cname"),
   (krb5Sname, "krb5_sname"),
   (dnsQuery, "dns_query"),
   (smbNamedPipe, "smb_named_pipe"),
   (smbShare, "smb_share")]

/- DataPos.String from rule.go: a Go map lookup, returning the zero
   string for a key that is absent. -/
def dataPosString (d : Int) : Str :=
  (stickyBuffers.lookup d).getD ""

/- StickyBuffer from rule.go: scan the map for a matching value;
   on failure return pktData with the error "%s is not a sticky buffer". -/
def StickyBuffer (s : Str) : Except Str Int :=
  match stickyBuffers.find? (fun kv => kv.2 == s) with
  | some kv => Except.ok kv.1
  | none => Except.error (s ++ " is not a sticky buffer")

/- The byteMatcher enumeration is a Go int, modelled as Int; iota
   constants bUnknown, bExtract, bTest, bJump. -/

def bUnknown : Int := 0
def bExtract : Int := 1
def bTest : Int := 2
def bJump : Int := 3

/- byteMatcherVals map from rule.go, in declaration order. -/
def byteMatcherVals : List (Int × Str) :=
  [(bExtract, "byte_extract"),
   (bJump, "byte_jump"),
   (bTest, "byte_test")]

/- byteMatcher.String from rule.go: Go map lookup with zero-string default. -/
def byteMatcherString (b : Int) : Str :=
  (byteMatcherVals.lookup b).getD ""

/- ByteMatcher from rule.go: scan the map for a matching value;
   on failure return bUnknown with the error "%s is not a byte_* keyword". -/
def ByteMatcher (s : Str) : Except Str Int :=
  match byteMatcherVals.find? (fun kv => kv.2 == s) with
  | some kv => Except.ok kv.1
  | none => Except.error (s ++ " is not a byte_* keyword")

/- Data model structures from rule.go. -/

structure Network where
  nets : List Str
  ports : List Str

structure Metadata where
  key : Str
  value : Str

structure Flowbit where
  action : Str
  value : Str

structure Reference where
  type : Str
  value : Str

structure FastPattern where
  enabled : Bool
  only : Bool
  offset : Int
  length : Int

structure ContentOption where
  name : Str
  value : Str

structure Content where
  dataPosition : Int
  fastPattern : FastPattern
  pattern : List Nat
  negate : Bool
  options : List ContentOption

structure ByteMatch where
  dataPosition : Int
  kind : Int
  variable_ : Str
  numBytes : Int
  operator : Str
  value : Int
  offset : Int
  options : List Str

/- PCRE pattern and options are Go byte slices rendered via %s;
   modelled directly as strings. -/
structure PCRE where
  pattern : Str
  negate : Bool
  options : Str

/- fmt's %.2X on a byte: two-digit uppercase hex. -/
def hexDigit (n : Nat) : Char :=
  if n < 10 then Char.ofNat (48 + n) else Char.ofNat (55 + n)

def hex2 (b : Nat) : Str :=
  String.mk [hexDigit (b / 16), hexDigit (b % 16)]

/- The loop body of Content.FormatPattern from rule.go, carrying the
   pipe flag. A byte enters the hex branch exactly when
   b != ' ' && (b > 126 || b < 35 || b == ':' || b == ';'). -/
def formatLoop : Bool → List Nat → Str
  | pipe, [] => if pipe then "|" else ""
  | pipe, b :: bs =>
    if b != 32 && (decide (126 < b) || decide (b < 35) || b == 58 || b == 59) then
      (if pipe then " " else "|") ++ hex2 b ++ formatLoop true bs
    else
      (if pipe then "|" else "") ++ String.mk [Char.ofNat b] ++ formatLoop false bs

/- Content.FormatPattern from rule.go. -/
def Content.FormatPattern (c : Content) : Str :=
  formatLoop false c.pattern

/- regexp.QuoteMeta from the Go standard library: backslash-escape every
   regular-expression metacharacter. -/
def regexSpecial : List Char :=
  ['\\', '.', '+', '*', '?', '(', ')', '|', '[', ']', Char.ofNat 123, Char.ofNat 125, '^', '$']

def quoteMeta (s : Str) : Str :=
  String.join (s.data.map (fun ch =>
    if regexSpecial.contains ch then String.mk ['\\', ch] else String.mk [ch]))

/-- Modelled from the spec: the helper escape and its regexp escapeRE are
not part of this slice (rule.go only uses them); per the spec the pattern
text is regex-metacharacter-escaped, modelled here character by character
over the regexp metacharacter set. -/
def escape (r : Str) : Str :=
  String.join (r.data.map (fun ch =>
    if regexSpecial.contains ch then String.mk ['\\', ch] else String.mk [ch]))

/- Go string(b) on a byte slice: the bytes, read as characters. -/
def bytesToText (bs : List Nat) : Str :=
  String.mk (bs.map Char.ofNat)

/- Content.ToRegexp from rule.go: bytes outside 32..126 become the
   wildcard, then regexp.QuoteMeta. -/
def Content.ToRegexp (c : Content) : Str :=
  quoteMeta (String.mk (c.pattern.map (fun b =>
    if decide (126 < b) || decide (b < 32) then '.' else Char.ofNat b)))

/- within from rule.go: the value of the first option named "within". -/
def within : List ContentOption → Str
  | [] => ""
  | o :: os => if o.name == "within" then o.value else within os

/- strconv.Atoi, modelled as a base-10 parse over the characters:
   an optional sign followed by at least one digit, nothing else.
   (Go's int range is not modelled; no claim exercises overflow.) -/
def parseDigits : Nat → List Char → Option Nat
  | acc, [] => some acc
  | acc, c :: cs => if c.isDigit then parseDigits (acc * 10 + (c.toNat - 48)) cs else none

def atoi (s : Str) : Option Int :=
  match s.data with
  | [] => none
  | c :: cs =>
    if c = '-' then
      match cs with
      | [] => none
      | _ :: _ => (parseDigits 0 cs).map (fun n => -(n : Int))
    else if c = '+' then
      match cs with
      | [] => none
      | _ :: _ => (parseDigits 0 cs).map (fun n => (n : Int))
    else (parseDigits 0 (c :: cs)).map (fun n => (n : Int))

/- inSlice from the repository (a plain membership test over a string
   slice, per its uses in rule.go). -/
def inSlice (a : Str) (l : List Str) : Bool :=
  l.contains a

/- Rule structure from rule.go. Tags is a Go map with unspecified
   iteration order; it is modelled as an association list, fixing one
   iteration order (a documented nondeterminism of the renderer). -/
inductive Matcher where
  | content (c : Content)
  | pcre (p : PCRE)
  | bytematch (b : ByteMatch)

structure Rule where
  disabled : Bool
  action : Str
  protocol : Str
  source : Network
  destination : Network
  bidirectional : Bool
  sid : Int
  revision : Int
  description : Str
  references : List Reference
  contents : List Content
  pcres : List PCRE
  byteMatchers : List ByteMatch
  tags : List (Str × Str)
  metas : List Metadata
  flowbits : List Flowbit
  matchers : List Matcher

/- Rule.RE from rule.go. -/
def Rule.RE (r : Rule) : Str :=
  r.contents.foldl (fun re c =>
    re ++ (match atoi (within c.options) with
           | some d => if 0 < d then ".\x7b0," ++ toString d ++ "\x7d" else ".*"
           | none => ".*")
       ++ escape (bytesToText c.pattern)) ""

/- netString from rule.go. -/
def netString (netPart : List Str) : Str :=
  (if netPart.length > 1 then "[" else "")
    ++ String.intercalate "," netPart
    ++ (if netPart.length > 1 then "]" else "")

/- Network.String from rule.go. -/
def Network.String (n : Network) : Str :=
  netString n.nets ++ " " ++ netString n.ports

/- FastPattern.String from rule.go. -/
def FastPattern.String (f : FastPattern) : Str :=
  if !f.enabled then ""
  else if f.only && (f.offset != 0 || f.length != 0) then ""
  else
    "fast_pattern"
      ++ (if f.only then ":only;"
          else
            (if f.offset != 0 && f.length != 0 then
              ":" ++ toString f.offset ++ "," ++ toString f.length
             else "") ++ ";")

/- ContentOption.String from rule.go. -/
def ContentOption.String (co : ContentOption) : Str :=
  if inSlice co.name ["byte_extract", "depth", "distance", "offset", "within"] then
    co.name ++ ":" ++ co.value ++ ";"
  else
    co.name ++ ";"

/- Reference.String from rule.go. -/
def Reference.String (r : Reference) : Str :=
  "reference:" ++ r.type ++ "," ++ r.value ++ ";"

/- Content.String from rule.go (sticky buffers are handled by the caller). -/
def Content.String (c : Content) : Str :=
  "content:" ++ (if c.negate then "!" else "")
    ++ "\"" ++ c.FormatPattern ++ "\";"
    ++ String.join (c.options.map (fun o => " " ++ o.String))
    ++ (if c.fastPattern.enabled then " " ++ c.fastPattern.String else "")

/- ByteMatch.String from rule.go: fixed argument order per kind, then
   the free-form options, then the terminating semicolon. -/
def ByteMatch.String (b : ByteMatch) : Str :=
  byteMatcherString b.kind ++ ":"
    ++ (if b.kind == bExtract then
          toString b.numBytes ++ "," ++ toString b.offset ++ "," ++ b.variable_
        else if b.kind == bJump then
          toString b.numBytes ++ "," ++ toString b.offset
        else if b.kind == bTest then
          toString b.numBytes ++ "," ++ b.operator ++ "," ++ toString b.value ++ "," ++ toString b.offset
        else "")
    ++ String.join (b.options.map (fun o => "," ++ o))
    ++ ";"

/- Metadatas.String from rule.go. -/
def metaJoin : List Metadata → Str
  | [] => ""
  | [m] => m.key ++ " " ++ m.value ++ ";"
  | m :: ms => m.key ++ " " ++ m.value ++ ", " ++ metaJoin ms

def Metadatas.String (ms : List Metadata) : Str :=
  if ms.length < 1 then "" else "metadata:" ++ metaJoin ms

/- PCRE.String from rule.go. -/
def PCRE.String (p : PCRE) : Str :=
  if p.pattern.length < 1 then ""
  else
    let pattern := if p.pattern.contains '"' then p.pattern.replace "\"" "\\\"" else p.pattern
    "pcre:" ++ (if p.negate then "!" else "") ++ "\"/" ++ pattern ++ "/" ++ p.options ++ "\";"

/- Flowbit.String from rule.go. -/
def Flowbit.String (fb : Flowbit) : Str :=
  if !inSlice fb.action ["noalert", "isset", "isnotset", "set", "unset", "toggle"] then ""
  else
    "flowbits:" ++ fb.action
      ++ (if fb.value != "" then "," ++ fb.value else "")
      ++ ";"

/- Dynamic dispatch of the orderedMatcher interface. -/
def Matcher.String : Matcher → Str
  | .content c => c.String
  | .pcre p => p.String
  | .bytematch b => b.String

/- The matcher loop of Rule.String from rule.go: the sticky-buffer
   cursor d starts at pktData; only a *Content whose DataPosition
   differs from d emits a buffer directive and moves the cursor. -/
def matchersLoop : Int → List Matcher → Str
  | _, [] => ""
  | d, m :: ms =>
    match m with
    | .content c =>
      if d != c.dataPosition then
        " " ++ dataPosString c.dataPosition ++ ";" ++ Matcher.String m ++ " "
          ++ matchersLoop c.dataPosition ms
      else
        Matcher.String m ++ " " ++ matchersLoop d ms
    | _ => Matcher.String m ++ " " ++ matchersLoop d ms

/- Rule.String from rule.go. -/
def Rule.String (r : Rule) : Str :=
  (if r.disabled then "#" else "")
    ++ r.action ++ " " ++ r.protocol ++ " " ++ r.source.String ++ " "
    ++ (if !r.bidirectional then "-> " else "<> ")
    ++ r.destination.String ++ " (msg:\"" ++ r.description ++ "\"; "
    ++ (if r.matchers.length > 0 then matchersLoop pktData r.matchers else "")
    ++ (if r.metas.length > 0 then Metadatas.String r.metas ++ " " else "")
    ++ String.join (r.tags.map (fun kv => kv.1 ++ ":" ++ kv.2 ++ "; "))
    ++ String.join (r.flowbits.map (fun fb => fb.String ++ " "))
    ++ String.join (r.references.map (fun ref => ref.String ++ " "))
    ++ "sid:" ++ toString r.sid ++ "; rev:" ++ toString r.revision ++ ";)"

/- Spec-side definitions (following the spec's words, for comparison
   with the source-derived definitions above). -/

/- toLooseRegex as the spec states it: bytes outside printable 32..126
   become the single-character wildcard, then metacharacter-escape. -/
def toLooseRegex (bs : List Nat) : Str :=
  escape (String.mk (bs.map (fun b =>
    if decide (b < 32) || decide (126 < b) then '.' else Char.ofNat b)))

/- The gap the spec prescribes per content in the regexp approximator. -/
def gapClaimed (c : Content) : Str :=
  match atoi (within c.options) with
  | some d => if 0 < d then ".\x7b0," ++ toString d ++ "\x7d" else ".*"
  | none => ".*"

/- Rule.RE as claim C4 describes it: gap, then the loosely-escaped
   (wildcard-substituted, metacharacter-escaped) pattern. -/
def ruleREClaimed (r : Rule) : Str :=
  r.contents.foldl (fun re c => re ++ gapClaimed c ++ toLooseRegex c.pattern) ""

/- Concrete fixtures. -/

def fpOff : FastPattern := FastPattern.mk false false 0 0

def contentAB : Content := Content.mk pktData fpOff [65, 66] false []

def contentCDFile : Content := Content.mk fileData fpOff [67, 68] false []

def netA : Network := Network.mk ["a"] ["1"]

def netB : Network := Network.mk ["b"] ["2"]

def bmJumpFile : ByteMatch := ByteMatch.mk fileData bJump "" 4 "" 0 0 []

/- A rule whose only matcher is a byte match positioned on file_data. -/
def ruleBM : Rule :=
  Rule.mk false "alert" "tcp" netA netB false 1 1 "m" [] [] [] [bmJumpFile] [] [] [] [Matcher.bytematch bmJumpFile]

/- A rule with two contents: default position, then file_data. -/
def ruleTwoContents : Rule :=
  Rule.mk false "alert" "tcp" netA netB false 1 1 "m" [] [contentAB, contentCDFile] [] [] [] [] [] [Matcher.content contentAB, Matcher.content contentCDFile]

def contentNul : Content := Content.mk pktData fpOff [0] false []

/- A rule whose single content is the NUL byte, with no options. -/
def ruleNul : Rule :=
  Rule.mk false "" "" netA netB false 1 1 "" [] [contentNul] [] [] [] [] [] []

def contentWithin5 : Content :=
  Content.mk pktData fpOff [97, 43, 98] false [ContentOption.mk "within" "5"]

/- A rule whose single content is "a+b" constrained by within:5. -/
def ruleWithin5 : Rule :=
  Rule.mk false "" "" netA netB false 1 1 "" [] [contentWithin5] [] [] [] [] [] []

/- Number of (possibly overlapping) occurrences of a character pattern
   in a character list; used to count substring occurrences in rendered
   rules. -/
def countOcc (pat : List Char) : List Char → Nat
  | [] => 0
  | c :: rest => (if pat.isPrefixOf (c :: rest) then 1 else 0) + countOcc pat rest

/- An association-list lookup misses when no key matches. -/
theorem lookupNoneOfNoKey (d : Int) (l : List (Int × Str)) (h : ∀ p ∈ l, p.1 ≠ d) :
    l.lookup d = none := by
  induction l with
  | nil => rfl
  | cons p ps ih =>
    have h1 : p.1 ≠ d := h p (List.mem_cons_self p ps)
    have h2 : ∀ q ∈ ps, q.1 ≠ d := fun q hq => h q (List.mem_cons_of_mem p hq)
    obtain ⟨k, v⟩ := p
    simp only at h1
    have hb : (d == k) = false := beq_eq_false_iff_ne.mpr (Ne.symm h1)
    simp [List.lookup, hb, ih h2]

/- Claim C10 -/

/-- Claim C10: for every Int value outside the enumerated
sticky-buffer table (the declared constants run from pktData = 0 to
smbShare = 28), the reverse lookup dataPosString returns the empty
string rather than a buffer keyword or an error. -/
theorem c10_datapos_default_empty (d : Int) (h : d < 0 ∨ 28 < d) :
    dataPosString d = "" := by
  have hk : ∀ p ∈ stickyBuffers, p.1 ≠ d := by
    intro p hp
    simp [stickyBuffers, pktData, fileData, base64Data, httpAcceptEnc, httpAccept,
      httpAcceptLang, httpConnection, httpContentLen, httpContentType, httpHeaderNames,
      httpProtocol, httpReferer, httpRequestLine, httpResponseLine, httpStart,
      tlsCertSubject, tlsCertIssuer, tlsCertSerial, tlsCertFingerprint, tlsSNI,
      ja3Hash, ja3String, sshProto, sshSoftware, krb5Cname, krb5Sname, dnsQuery,
      smbNamedPipe, smbShare] at hp
    rcases hp with hp|hp|hp|hp|hp|hp|hp|hp|hp|hp|hp|hp|hp|hp|hp|hp|hp|hp|hp|hp|hp|hp|hp|hp|hp|hp|hp|hp|hp <;>
      (subst hp; simp only [Prod.fst]; omega)
  unfold dataPosString
  rw [lookupNoneOfNoKey d stickyBuffers hk]
  rfl

/-- Witness for claim C10 at the first integer beyond the last declared
constant. -/
theorem c10_witness : dataPosString 29 = "" :=
  c10_datapos_default_empty 29 (Or.inr (by norm_num))

/- Claim C7 -/

/-- Claim C7: FastPattern.String returns the empty string whenever
Enabled is false, and whenever Only is true together with a non-zero
Offset or Length; when Enabled and Only hold and Offset and Length are
both zero it returns exactly "fast_pattern:only;", and no error is ever
raised for the invalid combination (the function is total into String). -/
theorem c7_fastpattern_empty_cases :
    (∀ f : FastPattern, f.enabled = false → FastPattern.String f = "")
  ∧ (∀ f : FastPattern, f.enabled = true → f.only = true →
      f.offset ≠ 0 ∨ f.length ≠ 0 → FastPattern.String f = "")
  ∧ FastPattern.String (FastPattern.mk true true 0 0) = "fast_pattern:only;" := by
  refine ⟨?_, ?_, by decide⟩
  · intro f h
    simp [FastPattern.String, h]
  · intro f h1 h2 h3
    rcases h3 with h3|h3 <;> simp [FastPattern.String, h1, h2, h3]

/-- Witness for claim C7: the disabled case and the invalid
only-with-offset combination at concrete inputs. -/
theorem c7_witness :
    FastPattern.String (FastPattern.mk false false 0 0) = ""
  ∧ FastPattern.String (FastPattern.mk true true 1 0) = "" :=
  ⟨c7_fastpattern_empty_cases.1 (FastPattern.mk false false 0 0) rfl,
   c7_fastpattern_empty_cases.2.1 (FastPattern.mk true true 1 0) rfl rfl
     (Or.inl (by decide))⟩

/- Claim C9 -/

/-- Claim C9: when Enabled is true, Only is false, and exactly one of
Offset and Length is non-zero, FastPattern.String returns exactly
"fast_pattern;" — the offset/length pair is silently dropped unless
both are non-zero. -/
theorem c9_fastpattern_single_chop (f : FastPattern)
    (h1 : f.enabled = true) (h2 : f.only = false)
    (h3 : (f.offset = 0 ∧ f.length ≠ 0) ∨ (f.offset ≠ 0 ∧ f.length = 0)) :
    FastPattern.String f = "fast_pattern;" := by
  rcases h3 with ⟨ha, hb⟩|⟨ha, hb⟩ <;> simp [FastPattern.String, h1, h2, ha, hb]

/-- Witness for claim C9 at offset 5, length 0. -/
theorem c9_witness : FastPattern.String (FastPattern.mk true false 5 0) = "fast_pattern;" :=
  c9_fastpattern_single_chop (FastPattern.mk true false 5 0) rfl rfl
    (Or.inr ⟨by decide, rfl⟩)

/- Claim C8 -/

/-- Claim C8: Flowbit.String returns the empty string, and no error, for
every Action outside the closed action set; for an Action in the set
with a non-empty Value it returns "flowbits:action,value;"; concretely
isset/x renders "flowbits:isset,x;" and bogus renders "". -/
theorem c8_flowbit_actions :
    (∀ fb : Flowbit,
      inSlice fb.action ["noalert", "isset", "isnotset", "set", "unset", "toggle"] = false →
        Flowbit.String fb = "")
  ∧ (∀ fb : Flowbit,
      inSlice fb.action ["noalert", "isset", "isnotset", "set", "unset", "toggle"] = true →
      fb.value ≠ "" →
        Flowbit.String fb = "flowbits:" ++ fb.action ++ ("," ++ fb.value) ++ ";")
  ∧ Flowbit.String (Flowbit.mk "isset" "x") = "flowbits:isset,x;"
  ∧ Flowbit.String (Flowbit.mk "bogus" "") = "" := by
  refine ⟨?_, ?_, by decide, by decide⟩
  · intro fb h
    simp [Flowbit.String, h]
  · intro fb h1 h2
    simp [Flowbit.String, h1, h2, String.append_assoc]

/-- Witness for claim C8 applying both the out-of-set case and the
in-set, non-empty-value case. -/
theorem c8_witness :
    Flowbit.String (Flowbit.mk "frobnicate" "y") = ""
  ∧ Flowbit.String (Flowbit.mk "unset" "bit") = "flowbits:" ++ "unset" ++ ("," ++ "bit") ++ ";" :=
  ⟨c8_flowbit_actions.1 (Flowbit.mk "frobnicate" "y") (by decide),
   c8_flowbit_actions.2.1 (Flowbit.mk "unset" "bit") (by decide) (by decide)⟩

/- Claim C6 -/

/-- Claim C6: for every string s that is not a keyword of the closed
sticky-buffer table, StickyBuffer s errors with a message containing s
(the message is s followed by " is not a sticky buffer"); ByteMatcher
behaves the same over its closed three-entry table; for a string that
is in a table the lookup returns the matching enumeration value with no
error; and the reverse lookup from enumeration value to keyword via the
String method never fails (for every table entry it returns the
keyword). -/
theorem c6_lookup_contract :
    (∀ s : Str, (∀ p ∈ stickyBuffers, p.2 ≠ s) →
        StickyBuffer s = Except.error (s ++ " is not a sticky buffer"))
  ∧ (∀ (s : Str) (d : Int), (d, s) ∈ stickyBuffers → StickyBuffer s = Except.ok d)
  ∧ (∀ (s : Str) (d : Int), (d, s) ∈ stickyBuffers → dataPosString d = s)
  ∧ (∀ s : Str, (∀ p ∈ byteMatcherVals, p.2 ≠ s) →
        ByteMatcher s = Except.error (s ++ " is not a byte_* keyword"))
  ∧ (∀ (s : Str) (b : Int), (b, s) ∈ byteMatcherVals → ByteMatcher s = Except.ok b) := by
  refine ⟨?_, ?_, ?_, ?_, ?_⟩
  · intro s h
    have hf : stickyBuffers.find? (fun kv => kv.2 == s) = none :=
      List.find?_eq_none.mpr (by intro x hx; simpa using h x hx)
    unfold StickyBuffer
    rw [hf]
  · intro s d hp
    simp [stickyBuffers, pktData, fileData, base64Data, httpAcceptEnc, httpAccept,
      httpAcceptLang, httpConnection, httpContentLen, httpContentType, httpHeaderNames,
      httpProtocol, httpReferer, httpRequestLine, httpResponseLine, httpStart,
      tlsCertSubject, tlsCertIssuer, tlsCertSerial, tlsCertFingerprint, tlsSNI,
      ja3Hash, ja3String, sshProto, sshSoftware, krb5Cname, krb5Sname, dnsQuery,
      smbNamedPipe, smbShare, Prod.ext_iff] at hp
    rcases hp with ⟨h1, h2⟩|⟨h1, h2⟩|⟨h1, h2⟩|⟨h1, h2⟩|⟨h1, h2⟩|⟨h1, h2⟩|⟨h1, h2⟩|⟨h1, h2⟩|⟨h1, h2⟩|⟨h1, h2⟩|⟨h1, h2⟩|⟨h1, h2⟩|⟨h1, h2⟩|⟨h1, h2⟩|⟨h1, h2⟩|⟨h1, h2⟩|⟨h1, h2⟩|⟨h1, h2⟩|⟨h1, h2⟩|⟨h1, h2⟩|⟨h1, h2⟩|⟨h1, h2⟩|⟨h1, h2⟩|⟨h1, h2⟩|⟨h1, h2⟩|⟨h1, h2⟩|⟨h1, h2⟩|⟨h1, h2⟩|⟨h1, h2⟩ <;>
      (subst h1; subst h2; rfl)
  · intro s d hp
    simp [stickyBuffers, pktData, fileData, base64Data, httpAcceptEnc, httpAccept,
      httpAcceptLang, httpConnection, httpContentLen, httpContentType, httpHeaderNames,
      httpProtocol, httpReferer, httpRequestLine, httpResponseLine, httpStart,
      tlsCertSubject, tlsCertIssuer, tlsCertSerial, tlsCertFingerprint, tlsSNI,
      ja3Hash, ja3String, sshProto, sshSoftware, krb5Cname, krb5Sname, dnsQuery,
      smbNamedPipe, smbShare, Prod.ext_iff] at hp
    rcases hp with ⟨h1, h2⟩|⟨h1, h2⟩|⟨h1, h2⟩|⟨h1, h2⟩|⟨h1, h2⟩|⟨h1, h2⟩|⟨h1, h2⟩|⟨h1, h2⟩|⟨h1, h2⟩|⟨h1, h2⟩|⟨h1, h2⟩|⟨h1, h2⟩|⟨h1, h2⟩|⟨h1, h2⟩|⟨h1, h2⟩|⟨h1, h2⟩|⟨h1, h2⟩|⟨h1, h2⟩|⟨h1, h2⟩|⟨h1, h2⟩|⟨h1, h2⟩|⟨h1, h2⟩|⟨h1, h2⟩|⟨h1, h2⟩|⟨h1, h2⟩|⟨h1, h2⟩|⟨h1, h2⟩|⟨h1, h2⟩|⟨h1, h2⟩ <;>
      (subst h1; subst h2; rfl)
  · intro s h
    have hf : byteMatcherVals.find? (fun kv => kv.2 == s) = none :=
      List.find?_eq_none.mpr (by intro x hx; simpa using h x hx)
    unfold ByteMatcher
    rw [hf]
  · intro s b hp
    simp [byteMatcherVals, bExtract, bTest, bJump, Prod.ext_iff] at hp
    rcases hp with ⟨h1, h2⟩|⟨h1, h2⟩|⟨h1, h2⟩ <;> (subst h1; subst h2; rfl)

/-- Witness for claim C6: an unknown keyword errors with the offending
string in the message, known keywords resolve in both directions, with
the byte-matcher table behaving the same. -/
theorem c6_witness :
    StickyBuffer "bogus" = Except.error ("bogus" ++ " is not a sticky buffer")
  ∧ StickyBuffer "file_data" = Except.ok fileData
  ∧ dataPosString fileData = "file_data"
  ∧ ByteMatcher "bogus" = Except.error ("bogus" ++ " is not a byte_* keyword")
  ∧ ByteMatcher "byte_jump" = Except.ok bJump :=
  ⟨c6_lookup_contract.1 "bogus" (by decide),
   c6_lookup_contract.2.1 "file_data" fileData (by decide),
   c6_lookup_contract.2.2.1 "file_data" fileData (by decide),
   c6_lookup_contract.2.2.2.1 "bogus" (by decide),
   c6_lookup_contract.2.2.2.2 "byte_jump" bJump (by decide)⟩

/- Claim C5 -/

/-- Claim C5: ByteMatch.String renders the kind keyword, a colon, then a
fixed kind-specific argument order — extract renders
numBytes,offset,variableName; jump renders numBytes,offset; test
renders numBytes,operator,value,offset — then every trailing free-form
option comma-appended in list order before the terminating semicolon;
in particular the concrete test byte match renders exactly
"byte_test:4,>,100,0;". -/
theorem c5_bytematch_rendering :
    (∀ b : ByteMatch, b.kind = bExtract →
      ByteMatch.String b =
        "byte_extract" ++ ":" ++ toString b.numBytes ++ "," ++ toString b.offset ++ ","
          ++ b.variable_ ++ String.join (b.options.map (fun o => "," ++ o)) ++ ";")
  ∧ (∀ b : ByteMatch, b.kind = bJump →
      ByteMatch.String b =
        "byte_jump" ++ ":" ++ toString b.numBytes ++ "," ++ toString b.offset
          ++ String.join (b.options.map (fun o => "," ++ o)) ++ ";")
  ∧ (∀ b : ByteMatch, b.kind = bTest →
      ByteMatch.String b =
        "byte_test" ++ ":" ++ toString b.numBytes ++ "," ++ b.operator ++ ","
          ++ toString b.value ++ "," ++ toString b.offset
          ++ String.join (b.options.map (fun o => "," ++ o)) ++ ";")
  ∧ ByteMatch.String (ByteMatch.mk pktData bTest "" 4 ">" 100 0 []) = "byte_test:4,>,100,0;" := by
  refine ⟨?_, ?_, ?_, by decide⟩ <;>
    (intro b h;
     simp [ByteMatch.String, h, byteMatcherString, byteMatcherVals, List.lookup,
       bExtract, bTest, bJump, String.append_assoc])

/-- Witness for claim C5 applying each kind-specific shape at a concrete
byte match carrying a trailing option. -/
theorem c5_witness :
    ByteMatch.String (ByteMatch.mk pktData bExtract "v" 2 "" 0 3 ["relative"]) =
      "byte_extract" ++ ":" ++ toString (2 : Int) ++ "," ++ toString (3 : Int) ++ ","
        ++ "v" ++ String.join (["relative"].map (fun o => "," ++ o)) ++ ";"
  ∧ ByteMatch.String (ByteMatch.mk pktData bJump "" 4 "" 0 12 []) =
      "byte_jump" ++ ":" ++ toString (4 : Int) ++ "," ++ toString (12 : Int)
        ++ String.join (([] : List Str).map (fun o => "," ++ o)) ++ ";"
  ∧ ByteMatch.String (ByteMatch.mk pktData bTest "" 4 ">" 100 0 []) =
      "byte_test" ++ ":" ++ toString (4 : Int) ++ "," ++ ">" ++ ","
        ++ toString (100 : Int) ++ "," ++ toString (0 : Int)
        ++ String.join (([] : List Str).map (fun o => "," ++ o)) ++ ";" :=
  ⟨c5_bytematch_rendering.1 (ByteMatch.mk pktData bExtract "v" 2 "" 0 3 ["relative"]) rfl,
   c5_bytematch_rendering.2.1 (ByteMatch.mk pktData bJump "" 4 "" 0 12 []) rfl,
   c5_bytematch_rendering.2.2.1 (ByteMatch.mk pktData bTest "" 4 ">" 100 0 []) rfl⟩

/- Claim C2 -/

/- The amended classification: a byte is hex-escaped exactly when it is
   outside 35..126 or is colon or semicolon, and is not the space byte. -/
def binaryByteAmended (b : Nat) : Bool :=
  decide ((b < 35 ∨ 126 < b ∨ b = 58 ∨ b = 59) ∧ b ≠ 32)

/- The encoder as the amended claim describes it: bytes classified by
   binaryByteAmended are grouped into pipe-delimited hex runs, every
   other byte is copied literally. -/
def specEncodeLoop : Bool → List Nat → Str
  | pipe, [] => if pipe then "|" else ""
  | pipe, b :: bs =>
    if binaryByteAmended b then
      (if pipe then " " else "|") ++ hex2 b ++ specEncodeLoop true bs
    else
      (if pipe then "|" else "") ++ String.mk [Char.ofNat b] ++ specEncodeLoop false bs

def specEncode (bs : List Nat) : Str :=
  specEncodeLoop false bs

/- The hex-escape test in rule.go agrees with the amended classification. -/
theorem hexCondAgrees (b : Nat) :
    (b != 32 && (decide (126 < b) || decide (b < 35) || b == 58 || b == 59))
      = binaryByteAmended b := by
  unfold binaryByteAmended
  rw [Bool.eq_iff_iff]
  simp only [Bool.and_eq_true, Bool.or_eq_true, decide_eq_true_eq, bne_iff_ne, beq_iff_eq]
  omega

theorem formatLoopEqSpec (bs : List Nat) : ∀ pipe : Bool, formatLoop pipe bs = specEncodeLoop pipe bs := by
  induction bs with
  | nil => intro pipe; rfl
  | cons b bs ih =>
    intro pipe
    simp only [formatLoop, specEncodeLoop, hexCondAgrees, ih]

/-- Claim C2 counterexample: the space byte (0x20) is NOT hex-escaped by
Content.FormatPattern; it is copied literally, although it lies below
the printable range 35..126 that the claim quotes. -/
theorem c2_counterexample :
    Content.FormatPattern (Content.mk pktData fpOff [32] false []) = " "
  ∧ Content.FormatPattern (Content.mk pktData fpOff [32] false []) ≠ "|" ++ hex2 32 ++ "|"
  ∧ 32 < 35 := by decide

/-- Claim C2 (amended): for every byte sequence, Content.FormatPattern
hex-escapes exactly the bytes that are outside the printable range
35..126 inclusive or are ASCII colon or semicolon AND are not the space
byte; the space byte and every other byte are copied literally (the
whole encoder equals the run-grouping encoder over that
classification). -/
theorem c2_hex_escape_classification (c : Content) :
    Content.FormatPattern c = specEncode c.pattern :=
  formatLoopEqSpec c.pattern false

/- Claim C3 -/

/-- Claim C3 counterexample: the pipe byte 0x7C lies in 35..126 and is
none of space, colon or semicolon, yet Content.FormatPattern of [0x7C]
is "|", which does contain a pipe character. -/
theorem c3_counterexample :
    Content.FormatPattern (Content.mk pktData fpOff [124] false []) = "|"
  ∧ '|' ∈ (Content.FormatPattern (Content.mk pktData fpOff [124] false [])).data
  ∧ 35 ≤ 124 ∧ 124 ≤ 126 ∧ 124 ≠ 32 ∧ 124 ≠ 58 ∧ 124 ≠ 59 := by decide

theorem formatLoopLiteral (bs : List Nat)
    (h : ∀ b ∈ bs, 35 ≤ b ∧ b ≤ 126 ∧ b ≠ 32 ∧ b ≠ 58 ∧ b ≠ 59) :
    formatLoop false bs = String.mk (bs.map Char.ofNat) := by
  induction bs with
  | nil => rfl
  | cons b bs ih =>
    have hb := h b (List.mem_cons_self b bs)
    have htail : ∀ x ∈ bs, 35 ≤ x ∧ x ≤ 126 ∧ x ≠ 32 ∧ x ≠ 58 ∧ x ≠ 59 :=
      fun x hx => h x (List.mem_cons_of_mem b hx)
    have hcond : (b != 32 && (decide (126 < b) || decide (b < 35) || b == 58 || b == 59)) = false := by
      rw [hexCondAgrees]
      unfold binaryByteAmended
      simp only [decide_eq_false_iff_not]
      omega
    simp only [formatLoop, hcond, Bool.false_eq_true, if_false]
    rw [ih htail]
    rfl

/- A byte in 35..126 other than 0x7C does not decode to the pipe
   character. -/
theorem charOfNatNePipe (b : Nat) (h1 : b ≤ 126) (h2 : b ≠ 124) : Char.ofNat b ≠ '|' := by
  intro hEq
  have hv : b.isValidChar := Or.inl (by omega)
  have ht : (Char.ofNat b).toNat = b := by
    unfold Char.ofNat
    rw [dif_pos hv]
    rfl
  rw [hEq] at ht
  exact h2 (by simpa using ht.symm)

/-- Claim C3 (amended): for every byte sequence whose bytes all lie in
35..126 and are none of space, colon, or semicolon, Content.FormatPattern
equals the bytes read as text; if additionally no byte is the pipe byte
0x7C, the output contains no pipe character; and on [0x00, 0x41, 0x00]
it yields exactly "|00|A|00|". -/
theorem c3_printable_literal :
    (∀ bs : List Nat, (∀ b ∈ bs, 35 ≤ b ∧ b ≤ 126 ∧ b ≠ 32 ∧ b ≠ 58 ∧ b ≠ 59) →
        Content.FormatPattern (Content.mk pktData fpOff bs false [])
          = String.mk (bs.map Char.ofNat))
  ∧ (∀ bs : List Nat, (∀ b ∈ bs, 35 ≤ b ∧ b ≤ 126 ∧ b ≠ 32 ∧ b ≠ 58 ∧ b ≠ 59 ∧ b ≠ 124) →
        '|' ∉ (Content.FormatPattern (Content.mk pktData fpOff bs false [])).data)
  ∧ Content.FormatPattern (Content.mk pktData fpOff [0, 65, 0] false []) = "|00|A|00|" := by
  refine ⟨?_, ?_, by decide⟩
  · intro bs h
    exact formatLoopLiteral bs h
  · intro bs h hmem
    rw [show Content.FormatPattern (Content.mk pktData fpOff bs false [])
          = formatLoop false bs from rfl,
        formatLoopLiteral bs (fun b hb => ⟨(h b hb).1, (h b hb).2.1, (h b hb).2.2.1,
          (h b hb).2.2.2.1, (h b hb).2.2.2.2.1⟩)] at hmem
    have hmem2 : '|' ∈ bs.map Char.ofNat := hmem
    obtain ⟨b, hb, hEq⟩ := List.mem_map.mp hmem2
    exact charOfNatNePipe b (h b hb).2.1 (h b hb).2.2.2.2.2 hEq

/-- Witness for claim C3 (amended) at the byte sequence "AB". -/
theorem c3_witness :
    Content.FormatPattern (Content.mk pktData fpOff [65, 66] false [])
      = String.mk ([65, 66].map Char.ofNat)
  ∧ '|' ∉ (Content.FormatPattern (Content.mk pktData fpOff [65, 66] false [])).data :=
  ⟨c3_printable_literal.1 [65, 66] (by decide),
   c3_printable_literal.2.1 [65, 66] (by decide)⟩

/- Claim C1 -/

/-- Claim C1 counterexample: a rule whose only matcher is a ByteMatch
with DataPosition file_data (differing from the initial pkt_data
cursor) renders with NO buffer-selector directive at all — Rule.String
consults the DataPosition of Contents only, never of ByteMatches. -/
theorem c1_counterexample :
    Rule.String ruleBM = "alert tcp a 1 -> b 2 (msg:\"m\"; byte_jump:4,0; sid:1; rev:1;)"
  ∧ countOcc "file_data".data (Rule.String ruleBM).data = 0
  ∧ bmJumpFile.dataPosition = fileData
  ∧ fileData ≠ pktData := by decide

/-- Claim C1 (amended): during a single render pass of Rule.String a
buffer-selector directive is emitted immediately before a Content whose
DataPosition differs from the cursor (initialized to pkt_data) and the
cursor is then updated; no directive is emitted when the DataPosition
equals the cursor; a ByteMatch never triggers a directive and leaves
the cursor unchanged; and the rule with two contents — the first at the
default position, the second at file_data — renders exactly one
"file_data;" directive, immediately before the second content's
"content:" clause. -/
theorem c1_buffer_directive :
    (∀ (d : Int) (c : Content) (ms : List Matcher), d ≠ c.dataPosition →
        matchersLoop d (Matcher.content c :: ms) =
          " " ++ dataPosString c.dataPosition ++ ";" ++ Content.String c ++ " "
            ++ matchersLoop c.dataPosition ms)
  ∧ (∀ (d : Int) (c : Content) (ms : List Matcher), d = c.dataPosition →
        matchersLoop d (Matcher.content c :: ms) = Content.String c ++ " " ++ matchersLoop d ms)
  ∧ (∀ (d : Int) (b : ByteMatch) (ms : List Matcher),
        matchersLoop d (Matcher.bytematch b :: ms) = ByteMatch.String b ++ " " ++ matchersLoop d ms)
  ∧ Rule.String ruleTwoContents =
      "alert tcp a 1 -> b 2 (msg:\"m\"; content:\"AB\";  file_data;content:\"CD\"; sid:1; rev:1;)"
  ∧ countOcc "file_data;".data (Rule.String ruleTwoContents).data = 1 := by
  refine ⟨?_, ?_, ?_, by decide, by decide⟩
  · intro d c ms h
    simp [matchersLoop, Matcher.String, bne_iff_ne, h, String.append_assoc]
  · intro d c ms h
    simp [matchersLoop, Matcher.String, h, String.append_assoc]
  · intro d b ms
    simp [matchersLoop, Matcher.String, String.append_assoc]

/-- Witness for claim C1 (amended): the directive-emitting and
directive-free steps of the matcher loop at concrete inputs. -/
theorem c1_witness :
    matchersLoop pktData [Matcher.content contentCDFile] =
      " " ++ dataPosString contentCDFile.dataPosition ++ ";" ++ Content.String contentCDFile
        ++ " " ++ matchersLoop contentCDFile.dataPosition []
  ∧ matchersLoop pktData [Matcher.content contentAB] =
      Content.String contentAB ++ " " ++ matchersLoop pktData [] :=
  ⟨c1_buffer_directive.1 pktData contentCDFile [] (by decide),
   c1_buffer_directive.2.1 pktData contentAB [] (by decide)⟩

/- Claim C4 -/

/-- Claim C4 counterexample: for a rule whose single content is the NUL
byte, Rule.RE keeps the raw byte (escaped only for regex
metacharacters), while the claimed toLooseRegex pipeline would replace
it by an escaped wildcard dot; the two disagree. -/
theorem c4_counterexample :
    Rule.RE ruleNul = ".*" ++ String.mk [Char.ofNat 0]
  ∧ ruleREClaimed ruleNul = ".*" ++ "\\."
  ∧ Rule.RE ruleNul ≠ ruleREClaimed ruleNul := by decide

/-- Claim C4 (amended): Rule.RE visits every Content in declared order
appending ".\x7b0,d\x7d" when its within option parses as a positive
integer d and ".*" otherwise, followed by that content's RAW pattern
text regex-metacharacter-escaped — without the toLooseRegex wildcard
substitution (bytes outside 32..126 are kept as-is, not replaced by
the dot); concretely, a content "a+b" with within:5 yields
".\x7b0,5\x7da\\+b". -/
theorem c4_re_structure :
    (∀ r : Rule, Rule.RE r =
      r.contents.foldl (fun re c => re ++ gapClaimed c ++ escape (bytesToText c.pattern)) "")
  ∧ Rule.RE ruleWithin5 = ".\x7b0,5\x7d" ++ "a\\+b" := by
  exact ⟨fun r => rfl, by decide⟩
